import Mathlib

/-!
Verification of the combined IMU+magnetometer firmware
(src/Gyrometer/src/main.cpp): angle-aware EMA smoothing, sensor-health
refresh, fusion mode selection, transport failover and line delivery.
Floating-point values are embedded as rationals; the raw magnetometer
triple (int16_t) is embedded as integers.
-/

/-- First loop of emaAngle (main.cpp lines 94-95):
while (diff > 180) diff -= 360. -/
def wrapDown (d : ℚ) : ℚ :=
  if h : d > 180 then wrapDown (d - 360) else d
termination_by (⌈d⌉ - 180).toNat
decreasing_by
  have h1 : (180 : ℤ) < ⌈d⌉ := Int.lt_ceil.mpr (by exact_mod_cast h)
  have h2 : ⌈d - 360⌉ = ⌈d⌉ - 360 := by
    exact_mod_cast Int.ceil_sub_int d (360 : ℤ)
  rw [h2]
  omega

/-- Second loop of emaAngle (main.cpp lines 96-97):
while (diff < -180) diff += 360. -/
def wrapUp (d : ℚ) : ℚ :=
  if h : d < -180 then wrapUp (d + 360) else d
termination_by (-(⌊d⌋ + 180)).toNat
decreasing_by
  have h1 : ⌊d⌋ < -180 := Int.floor_lt.mpr (by exact_mod_cast h)
  have h2 : ⌊d + 360⌋ = ⌊d⌋ + 360 := by
    exact_mod_cast Int.floor_add_int d (360 : ℤ)
  rw [h2]
  omega

/-- The wrapped difference used by emaAngle: both loops in source order. -/
def wrapDiff (d : ℚ) : ℚ := wrapUp (wrapDown d)

/-- emaAngle (main.cpp lines 91-99): angle-aware EMA step.
diff = raw - smoothed, wrapped into [-180, 180], then
smoothed + alpha * diff. -/
def emaAngle (smoothed raw alpha : ℚ) : ℚ :=
  smoothed + alpha * wrapDiff (raw - smoothed)

/-- Per-axis state of the smoother: one of smoothRoll / smoothPitch /
smoothYaw together with the emaInitialized flag (main.cpp lines 62-63). -/
structure EmaState where
  value : ℚ
  seeded : Bool
deriving DecidableEq, Repr

/-- Initial per-axis smoother state (globals at main.cpp lines 62-63):
value 0, not yet initialized. -/
def emaInit : EmaState := ⟨0, false⟩

/-- One valid tick of the per-axis smoother (main.cpp lines 252-261):
seed from raw on the first valid estimate, otherwise apply emaAngle. -/
def emaUpdate (st : EmaState) (raw alpha : ℚ) : EmaState :=
  if st.seeded then ⟨emaAngle st.value raw alpha, true⟩ else ⟨raw, true⟩

/-- Run of the per-axis smoother over a list of raw values. -/
def emaRun (alpha : ℚ) (raws : List ℚ) : EmaState :=
  raws.foldl (fun st r => emaUpdate st r alpha) emaInit

theorem wrapDown_eq_of_le {d : ℚ} (h : d ≤ 180) : wrapDown d = d := by
  rw [wrapDown]
  simp [not_lt.mpr h]

theorem wrapDown_eq_step {d : ℚ} (h : 180 < d) :
    wrapDown d = wrapDown (d - 360) := by
  rw [wrapDown]
  simp [h]

theorem wrapUp_eq_of_le {d : ℚ} (h : -180 ≤ d) : wrapUp d = d := by
  rw [wrapUp]
  simp [not_lt.mpr h]

theorem wrapUp_eq_step {d : ℚ} (h : d < -180) :
    wrapUp d = wrapUp (d + 360) := by
  rw [wrapUp]
  simp [h]

theorem wrapDown_le (d : ℚ) : wrapDown d ≤ 180 := by
  induction d using wrapDown.induct with
  | case1 d h ih =>
      rw [wrapDown_eq_step h]
      exact ih
  | case2 d h =>
      rw [wrapDown_eq_of_le (not_lt.mp h)]
      exact not_lt.mp h

theorem wrapDown_congr (d : ℚ) : ∃ k : ℤ, wrapDown d = d - 360 * k := by
  induction d using wrapDown.induct with
  | case1 d h ih =>
      obtain ⟨k, hk⟩ := ih
      exact ⟨k + 1, by rw [wrapDown_eq_step h, hk]; push_cast; ring⟩
  | case2 d h =>
      exact ⟨0, by rw [wrapDown_eq_of_le (not_lt.mp h)]; ring⟩

theorem wrapUp_ge (d : ℚ) : -180 ≤ wrapUp d := by
  induction d using wrapUp.induct with
  | case1 d h ih =>
      rw [wrapUp_eq_step h]
      exact ih
  | case2 d h =>
      rw [wrapUp_eq_of_le (not_lt.mp h)]
      exact not_lt.mp h

theorem wrapUp_le {d : ℚ} (hd : d ≤ 180) : wrapUp d ≤ 180 := by
  induction d using wrapUp.induct with
  | case1 d h ih =>
      rw [wrapUp_eq_step h]
      exact ih (by linarith)
  | case2 d h =>
      rw [wrapUp_eq_of_le (not_lt.mp h)]
      exact hd

theorem wrapUp_congr (d : ℚ) : ∃ k : ℤ, wrapUp d = d + 360 * k := by
  induction d using wrapUp.induct with
  | case1 d h ih =>
      obtain ⟨k, hk⟩ := ih
      exact ⟨k + 1, by rw [wrapUp_eq_step h, hk]; push_cast; ring⟩
  | case2 d h =>
      exact ⟨0, by rw [wrapUp_eq_of_le (not_lt.mp h)]; ring⟩

theorem wrapDiff_mem (d : ℚ) : -180 ≤ wrapDiff d ∧ wrapDiff d ≤ 180 :=
  ⟨wrapUp_ge (wrapDown d), wrapUp_le (wrapDown_le d)⟩

theorem wrapDiff_congr (d : ℚ) : ∃ k : ℤ, wrapDiff d = d + 360 * k := by
  obtain ⟨k1, hk1⟩ := wrapDown_congr d
  obtain ⟨k2, hk2⟩ := wrapUp_congr (wrapDown d)
  refine ⟨k2 - k1, ?_⟩
  rw [wrapDiff, hk2, hk1]
  push_cast
  ring

theorem wrapDiff_eq_self {d : ℚ} (h1 : -180 ≤ d) (h2 : d ≤ 180) :
    wrapDiff d = d := by
  rw [wrapDiff, wrapDown_eq_of_le h2, wrapUp_eq_of_le h1]

theorem wrapDiff_unique {x y : ℚ} (k : ℤ) (hx : x = y + 360 * k)
    (h1 : -180 < y) (h2 : y < 180) : wrapDiff x = y := by
  obtain ⟨m, hm⟩ := wrapDiff_congr x
  obtain ⟨hlo, hhi⟩ := wrapDiff_mem x
  have hsum : wrapDiff x = y + 360 * ((k : ℚ) + (m : ℚ)) := by
    rw [hm, hx]; ring
  have h360 : (360 : ℚ) * ((k : ℚ) + (m : ℚ)) = wrapDiff x - y := by
    linarith [hsum]
  have hup : ((k : ℚ) + (m : ℚ)) < 1 := by linarith
  have hdown : (-1 : ℚ) < (k : ℚ) + (m : ℚ) := by linarith
  have hz : k + m = 0 := by
    have ha : ((k + m : ℤ) : ℚ) < 1 := by push_cast; linarith
    have hb : (-1 : ℚ) < ((k + m : ℤ) : ℚ) := by push_cast; linarith
    have ha2 : (k + m : ℤ) < 1 := by exact_mod_cast ha
    have hb2 : (-1 : ℤ) < k + m := by exact_mod_cast hb
    omega
  have hzq : (k : ℚ) + (m : ℚ) = 0 := by
    have := congrArg (fun z : ℤ => ((z : ℚ))) hz
    push_cast at this
    linarith
  rw [hsum, hzq]
  ring

theorem emaAngle_no_wrap {s b : ℚ} (alpha : ℚ) (h : |b - s| ≤ 180) :
    emaAngle s b alpha = s + alpha * (b - s) := by
  rw [emaAngle, wrapDiff_eq_self (neg_le_of_abs_le h) (le_of_abs_le h)]

theorem emaUpdate_fixed (c alpha : ℚ) :
    emaUpdate ⟨c, true⟩ c alpha = ⟨c, true⟩ := by
  rw [emaUpdate]
  simp [emaAngle_no_wrap alpha (by norm_num : |c - c| ≤ (180 : ℚ))]

theorem emaRun_const_from_seed (c alpha : ℚ) (n : ℕ) :
    List.foldl (fun st r => emaUpdate st r alpha) ⟨c, true⟩
      (List.replicate n c) = ⟨c, true⟩ := by
  induction n with
  | zero => rfl
  | succ m ih =>
      rw [List.replicate_succ, List.foldl_cons, emaUpdate_fixed]
      exact ih

/-- Claim C1 (amended): the smoothed value is seeded exactly from the first
valid raw value at step 0, and for a previous smoothed value s and a new raw
value b with abs (b - s) at most 180 (no wrap), the next smoothed value is
exactly s + alpha * (b - s). -/
theorem c1_seed_and_linear_step (alpha : ℚ) :
    (∀ r, emaUpdate emaInit r alpha = ⟨r, true⟩) ∧
    (∀ s b, |b - s| ≤ 180 → emaAngle s b alpha = s + alpha * (b - s)) := by
  constructor
  · intro r
    rw [emaUpdate, emaInit]
    simp
  · intro s b h
    exact emaAngle_no_wrap alpha h

/-- Witness for c1_seed_and_linear_step at alpha = 3/20, s = 10, b = 20. -/
theorem c1_seed_and_linear_step_witness :
    emaUpdate emaInit 7 (3 / 20) = ⟨7, true⟩ ∧
    emaAngle 10 20 (3 / 20) = 10 + (3 / 20) * (20 - 10) :=
  ⟨(c1_seed_and_linear_step (3 / 20)).1 7,
   (c1_seed_and_linear_step (3 / 20)).2 10 20 (by norm_num)⟩

theorem emaUpdate_unseeded (v r alpha : ℚ) :
    emaUpdate ⟨v, false⟩ r alpha = ⟨r, true⟩ := by
  rw [emaUpdate]
  simp

theorem emaUpdate_seeded_no_wrap (v r alpha : ℚ) (h : |r - v| ≤ 180) :
    emaUpdate ⟨v, true⟩ r alpha = ⟨v + alpha * (r - v), true⟩ := by
  rw [emaUpdate]
  simp [emaAngle_no_wrap alpha h]

/-- Claim C1 is false as stated: it relates consecutive raw values a = 100,
b = 100, but the code computes the difference against the previous smoothed
value, not the previous raw value.  With alpha = 1/2 and raw sequence
[0, 100, 100] the smoothed values are 0, 50, 75, while the claim predicts
the smoothed value at step 2 to be 50 + (1/2) * (100 - 100) = 50. -/
theorem c1_counterexample :
    (emaRun (1 / 2) [0, 100]).value = 50 ∧
    (emaRun (1 / 2) [0, 100, 100]).value = 75 ∧
    |(100 : ℚ) - 100| ≤ 180 ∧
    (emaRun (1 / 2) [0, 100, 100]).value ≠
      (emaRun (1 / 2) [0, 100]).value + (1 / 2) * ((100 : ℚ) - 100) := by
  have e1 : emaUpdate emaInit (0 : ℚ) (1 / 2) = ⟨0, true⟩ := by
    rw [emaInit, emaUpdate_unseeded]
  have e2 : emaUpdate ⟨0, true⟩ (100 : ℚ) (1 / 2) = ⟨50, true⟩ := by
    rw [emaUpdate_seeded_no_wrap 0 100 (1 / 2) (by norm_num)]
    norm_num
  have e3 : emaUpdate ⟨50, true⟩ (100 : ℚ) (1 / 2) = ⟨75, true⟩ := by
    rw [emaUpdate_seeded_no_wrap 50 100 (1 / 2) (by norm_num)]
    norm_num
  have h1 : emaRun (1 / 2) [0, 100] = ⟨50, true⟩ := by
    simp only [emaRun, List.foldl_cons, List.foldl_nil]
    rw [e1, e2]
  have h2 : emaRun (1 / 2) [0, 100, 100] = ⟨75, true⟩ := by
    simp only [emaRun, List.foldl_cons, List.foldl_nil]
    rw [e1, e2, e3]
  rw [h1, h2]
  norm_num

theorem emaRun_359_1 : emaRun 1 [359, 1] = ⟨361, true⟩ := by
  have e1 : emaUpdate emaInit (359 : ℚ) 1 = ⟨359, true⟩ := by
    rw [emaInit, emaUpdate_unseeded]
  have e2 : emaUpdate ⟨359, true⟩ (1 : ℚ) 1 = ⟨361, true⟩ := by
    rw [emaUpdate]
    simp only [if_pos rfl]
    rw [emaAngle, wrapDiff]
    rw [wrapDown_eq_of_le (by norm_num)]
    rw [wrapUp_eq_step (by norm_num)]
    norm_num
    rw [wrapUp_eq_of_le (by norm_num)]
    norm_num
  simp only [emaRun, List.foldl_cons, List.foldl_nil]
  rw [e1, e2]

/-- Claim C2 (amended): on raw sequence [359, 1] with alpha = 1 the smoothed
value at step 1 is exactly 361, which is 1 + 360 (the same angle modulo 360,
the code does not renormalize its output into [0, 360)); in particular it is
not 181 and not -358. -/
theorem c2_wraparound_sequence :
    (emaRun 1 [359, 1]).value = 361 ∧
    (emaRun 1 [359, 1]).value = 1 + 360 ∧
    (emaRun 1 [359, 1]).value ≠ 181 ∧
    (emaRun 1 [359, 1]).value ≠ -358 := by
  rw [emaRun_359_1]
  norm_num

/-- Claim C2 is false as stated: the smoothed value at step 1 is 361, which is
not approximately 1 as a number (it differs from 1 by exactly 360, beyond any
tolerance up to 180); it is the same angle as 1 only modulo 360. -/
theorem c2_counterexample :
    (emaRun 1 [359, 1]).value = 361 ∧
    ¬ |(emaRun 1 [359, 1]).value - 1| ≤ 180 := by
  rw [emaRun_359_1]
  norm_num

theorem emaAngle_contract (s c alpha : ℚ) (h0 : 0 < alpha) (h1 : alpha ≤ 1) :
    wrapDiff (c - emaAngle s c alpha) = (1 - alpha) * wrapDiff (c - s) := by
  obtain ⟨k, hk⟩ := wrapDiff_congr (c - s)
  obtain ⟨hlo, hhi⟩ := wrapDiff_mem (c - s)
  apply wrapDiff_unique (-k)
  · rw [emaAngle]
    push_cast
    linarith [hk]
  · nlinarith [hlo, hhi, h0, h1]
  · nlinarith [hlo, hhi, h0, h1]

/-- Claim C8: feeding a constant raw value c repeatedly keeps the smoothed
value exactly at c for the seeded run (hence it converges to c), and for an
arbitrary previous smoothed value s one update step scales the wrapped
angular distance to c by exactly (1 - alpha), so for 0 < alpha and
alpha at most 1 the distance to c contracts at each step. -/
theorem c8_constant_convergence (c alpha : ℚ) (h0 : 0 < alpha)
    (h1 : alpha ≤ 1) :
    (∀ n, (emaRun alpha (List.replicate (n + 1) c)).value = c) ∧
    (∀ s, |wrapDiff (c - emaAngle s c alpha)| =
      (1 - alpha) * |wrapDiff (c - s)|) := by
  constructor
  · intro n
    rw [emaRun, List.replicate_succ, List.foldl_cons]
    have e1 : emaUpdate emaInit c alpha = ⟨c, true⟩ := by
      rw [emaInit, emaUpdate_unseeded]
    rw [e1, emaRun_const_from_seed]
  · intro s
    rw [emaAngle_contract s c alpha h0 h1, abs_mul,
      abs_of_nonneg (by linarith : (0 : ℚ) ≤ 1 - alpha)]

/-- Witness for c8_constant_convergence at c = 10, alpha = 1/2, three steps
of the seeded run and one contraction step from s = 0. -/
theorem c8_constant_convergence_witness :
    (emaRun (1 / 2) (List.replicate 3 (10 : ℚ))).value = 10 ∧
    |wrapDiff (10 - emaAngle 0 10 (1 / 2))| =
      (1 - 1 / 2) * |wrapDiff ((10 : ℚ) - 0)| :=
  ⟨(c8_constant_convergence 10 (1 / 2) (by norm_num) (by norm_num)).1 2,
   (c8_constant_convergence 10 (1 / 2) (by norm_num) (by norm_num)).2 0⟩

/-- The two delivery channels of the Transport Manager. -/
inductive TxChannel where
  | wifi
  | serial
deriving DecidableEq

/-- sendLine (main.cpp lines 78-88): deliver one telemetry line over the
active transport.  Result is the channel used and the exact bytes handed to
it: udp.print sends the line as one datagram, unchanged; Serial.println
appends CRLF. -/
def sendLine (useWiFi : Bool) (line : String) : TxChannel × String :=
  if useWiFi then (TxChannel.wifi, line)
  else (TxChannel.serial, line ++ "\r\n")

/-- A byte string is newline-terminated when its last character is LF. -/
def newlineTerminated (s : String) : Prop :=
  s.data.getLast? = some '\n'

/-- Transport Manager state: the globals useWiFi and wifiEverConnected
(main.cpp lines 57-58).  useWiFi = true is the Primary state,
useWiFi = false the Fallback state. -/
structure TransportState where
  useWiFi : Bool
  wifiEverConnected : Bool
deriving DecidableEq

/-- Effect of one supervisory check: the successor state, the lines handed to
sendLine during the check (with their channel), and whether a reconnect
attempt (WiFi.begin) was issued. -/
structure CheckResult where
  state : TransportState
  sent : List (TxChannel × String)
  beganConnect : Bool
deriving DecidableEq

/-- WiFi watchdog body (main.cpp lines 192-206), run once per supervisory
interval.  wifiConnected embeds WiFi.status() == WL_CONNECTED at the check.
In the failover branch the source first clears useWiFi and then calls
sendLine, which reads the global, so the line goes out on serial; dually for
failback. -/
def wifiCheck (st : TransportState) (wifiConnected : Bool) : CheckResult :=
  if st.useWiFi && !wifiConnected then
    { state := { useWiFi := false, wifiEverConnected := st.wifiEverConnected },
      sent := [sendLine false "TRANSPORT,serial"],
      beganConnect := false }
  else if !st.useWiFi && st.wifiEverConnected then
    if wifiConnected then
      { state := { useWiFi := true, wifiEverConnected := st.wifiEverConnected },
        sent := [sendLine true "TRANSPORT,wifi"],
        beganConnect := false }
    else
      { state := st, sent := [], beganConnect := true }
  else
    { state := st, sent := [], beganConnect := false }

/-- Result of the periodic I2C health refresh. -/
structure HealthResult where
  imuConnected : Bool
  magConnected : Bool
  sent : TxChannel × String
deriving DecidableEq

/-- I2C health refresh body (main.cpp lines 209-216): imuConnected and
magConnected are overwritten from fresh I2C presence probes (checkI2CDevice),
regardless of their previous values, and a STATUS line built from the new
values is sent on the active transport. -/
def healthCheck (useWiFi imuProbe magProbe : Bool) : HealthResult :=
  { imuConnected := imuProbe,
    magConnected := magProbe,
    sent := sendLine useWiFi ("STATUS," ++ (if imuProbe then "1" else "0")
      ++ "," ++ (if magProbe then "1" else "0")) }

/-- State left by setup. -/
structure SetupResult where
  imuConnected : Bool
  magConnected : Bool
  useWiFi : Bool
  wifiEverConnected : Bool
  sent : List (TxChannel × String)
deriving DecidableEq

/-- setup (main.cpp lines 138-188), claim-relevant effects: imuConnected is
the I2C probe result and-ed with imu.init() success (lines 150, 158-161);
magConnected is the probe result; useWiFi and wifiEverConnected come from the
initial bounded connection attempt setupWiFi (lines 128, 184); finally
exactly one TRANSPORT line is sent on the resulting channel (line 187).
There is no halt construct anywhere in this function: on IMU init failure it
prints an error, records the failure in imuConnected and runs on to the
transport announcement and the main loop. -/
def setupModel (imuProbe imuInitOk magProbe wifiOk : Bool) : SetupResult :=
  { imuConnected := imuProbe && imuInitOk,
    magConnected := magProbe,
    useWiFi := wifiOk,
    wifiEverConnected := wifiOk,
    sent := [sendLine wifiOk
      ("TRANSPORT," ++ (if wifiOk then "wifi" else "serial"))] }

/-- A rational 3-vector. -/
abbrev Vec3 := ℚ × ℚ × ℚ

/-- The filter invocation made by one sensor tick: none at all, the 6-axis
updateIMU call, or the 9-axis update call with calibrated magnetometer data
(Madgwick filter calls at main.cpp lines 240-242). -/
inductive FusionCall where
  | skipped
  | updateIMU (gx gy gz ax ay az : ℚ)
  | update (gx gy gz ax ay az mx my mz : ℚ)
deriving DecidableEq

def MAG_OFFSET_X : ℚ := 0
def MAG_OFFSET_Y : ℚ := 0
def MAG_OFFSET_Z : ℚ := 0
def MAG_SCALE_X : ℚ := 1
def MAG_SCALE_Y : ℚ := 1
def MAG_SCALE_Z : ℚ := 1
def MAG_UT_PER_LSB : ℚ := 100 / 1090
def EMA_ALPHA : ℚ := 15 / 100

/-- Sensor tick up to the filter call (main.cpp lines 222-243): when the IMU
is connected, read accel and gyro; when the magnetometer is also connected,
read its raw int16 triple, calibrate it, and mark it valid only when the raw
triple is not all zeros; call the filter in 9-axis mode when valid, else in
6-axis mode.  When the IMU is not connected nothing is read and no filter
call is made. -/
def fusionStage (imuConnected magConnected : Bool) (g a : Vec3)
    (magRaw : ℤ × ℤ × ℤ) : FusionCall :=
  if imuConnected then
    let mx_ut : ℚ := if magConnected then
      ((magRaw.1 : ℚ) - MAG_OFFSET_X) * MAG_SCALE_X * MAG_UT_PER_LSB else 0
    let my_ut : ℚ := if magConnected then
      ((magRaw.2.1 : ℚ) - MAG_OFFSET_Y) * MAG_SCALE_Y * MAG_UT_PER_LSB else 0
    let mz_ut : ℚ := if magConnected then
      ((magRaw.2.2 : ℚ) - MAG_OFFSET_Z) * MAG_SCALE_Z * MAG_UT_PER_LSB else 0
    let magValid : Bool := magConnected &&
      (magRaw.1 != 0 || magRaw.2.1 != 0 || magRaw.2.2 != 0)
    if magValid then
      FusionCall.update g.1 g.2.1 g.2.2 a.1 a.2.1 a.2.2 mx_ut my_ut mz_ut
    else
      FusionCall.updateIMU g.1 g.2.1 g.2.2 a.1 a.2.1 a.2.2
  else
    FusionCall.skipped

/-- Whether a tick invoked the 9-axis fusion path. -/
def isNineAxis : FusionCall → Bool
  | FusionCall.update _ _ _ _ _ _ _ _ _ => true
  | _ => false

/-- The three-axis smoothing state: globals smoothRoll, smoothPitch,
smoothYaw and emaInitialized (main.cpp lines 62-63). -/
structure SmoothState where
  smoothRoll : ℚ
  smoothPitch : ℚ
  smoothYaw : ℚ
  emaInitialized : Bool
deriving DecidableEq

/-- Post-filter stage of the tick (main.cpp lines 245-266).  The filter
outputs are embedded as Option rationals with none standing for NaN, so the
source guard !isnan(roll) && !isnan(pitch) && !isnan(yaw) is the all-some
match.  On a valid tick the smoother is seeded or advanced and one EULER
payload (the new smoothed triple; decimal rendering by Arduino String(x, 2)
is outside the model) is emitted; on a NaN tick nothing happens. -/
def eulerStage (st : SmoothState) (roll pitch yaw : Option ℚ) :
    SmoothState × List Vec3 :=
  match roll, pitch, yaw with
  | some r, some p, some y =>
      let st2 : SmoothState :=
        if st.emaInitialized then
          { smoothRoll := emaAngle st.smoothRoll r EMA_ALPHA,
            smoothPitch := emaAngle st.smoothPitch p EMA_ALPHA,
            smoothYaw := emaAngle st.smoothYaw y EMA_ALPHA,
            emaInitialized := true }
        else
          { smoothRoll := r, smoothPitch := p, smoothYaw := y,
            emaInitialized := true }
      (st2, [(st2.smoothRoll, st2.smoothPitch, st2.smoothYaw)])
  | _, _, _ => (st, [])

/-- Claim C3: whenever the state is Primary and the primary link reports
itself disconnected, the very next supervisory check flips the state to
Fallback and emits exactly one TRANSPORT,serial line, delivered over the
newly active serial channel; and any supervisory check that leaves the state
unchanged emits no line at all. -/
theorem c3_failover_emits_once (st : TransportState) (h : st.useWiFi = true) :
    (wifiCheck st false).state.useWiFi = false ∧
    (wifiCheck st false).sent =
      [(TxChannel.serial, "TRANSPORT,serial" ++ "\r\n")] ∧
    (∀ st2 c, (wifiCheck st2 c).state = st2 → (wifiCheck st2 c).sent = []) := by
  refine ⟨?_, ?_, ?_⟩
  · rw [wifiCheck]
    simp [h]
  · rw [wifiCheck]
    simp [h, sendLine]
  · intro st2 c hst
    rcases st2 with ⟨u, e⟩
    cases u <;> cases e <;> cases c <;> simp_all [wifiCheck, sendLine]

/-- Witness for c3_failover_emits_once at state Primary with
wifiEverConnected = true. -/
theorem c3_failover_emits_once_witness :
    (wifiCheck ⟨true, true⟩ false).state.useWiFi = false ∧
    (wifiCheck ⟨true, true⟩ false).sent =
      [(TxChannel.serial, "TRANSPORT,serial" ++ "\r\n")] ∧
    (∀ st2 c, (wifiCheck st2 c).state = st2 → (wifiCheck st2 c).sent = []) :=
  c3_failover_emits_once ⟨true, true⟩ rfl

/-- Claim C4 (amended): when the primary has never connected, the supervisory
check from Fallback never transitions to Primary, emits nothing — and issues
no reconnect attempt either; reconnect attempts are issued only when the
primary has connected at least once since startup. -/
theorem c4_never_connected_stays_fallback (st : TransportState)
    (h1 : st.useWiFi = false) (h2 : st.wifiEverConnected = false) :
    (∀ c, (wifiCheck st c).state = st ∧ (wifiCheck st c).sent = [] ∧
      (wifiCheck st c).beganConnect = false) ∧
    (∀ st2 c, (wifiCheck st2 c).beganConnect = true →
      st2.wifiEverConnected = true) := by
  constructor
  · intro c
    rcases st with ⟨u, e⟩
    cases u
    · cases e
      · cases c <;> simp [wifiCheck]
      · exact absurd h2 (by simp)
    · exact absurd h1 (by simp)
  · intro st2 c hb
    rcases st2 with ⟨u, e⟩
    cases u <;> cases e <;> cases c <;> simp_all [wifiCheck]

/-- Witness for c4_never_connected_stays_fallback at the never-connected
Fallback state, including one concrete application of each conjunct. -/
theorem c4_never_connected_stays_fallback_witness :
    ((wifiCheck ⟨false, false⟩ true).state = ⟨false, false⟩ ∧
      (wifiCheck ⟨false, false⟩ true).sent = [] ∧
      (wifiCheck ⟨false, false⟩ true).beganConnect = false) ∧
    (⟨false, true⟩ : TransportState).wifiEverConnected = true :=
  ⟨(c4_never_connected_stays_fallback ⟨false, false⟩ rfl rfl).1 true,
   (c4_never_connected_stays_fallback ⟨false, false⟩ rfl rfl).2
     ⟨false, true⟩ false (by rfl)⟩

/-- Claim C4 is false as stated: in the never-connected Fallback state the
supervisory check stays in Fallback but issues NO periodic connect attempt —
the WiFi.begin retry is gated on wifiEverConnected. -/
theorem c4_counterexample :
    (wifiCheck ⟨false, false⟩ false).state = ⟨false, false⟩ ∧
    (wifiCheck ⟨false, false⟩ false).beganConnect = false := by
  constructor <;> rfl

/-- Claim C5 (amended): an IMU init failure at startup is not fatal: setup
records the failure in imuConnected but still completes and emits its single
TRANSPORT line, and the periodic health check recomputes imuConnected from a
fresh I2C probe, so a later probe success restores operation.  The program
has no halting failure path (the busy-wait halt on init failure exists only
in the out-of-scope demo sketches). -/
theorem c5_init_failure_not_fatal (magProbe wifiOk : Bool) :
    (setupModel true false magProbe wifiOk).imuConnected = false ∧
    (setupModel true false magProbe wifiOk).sent.length = 1 ∧
    (∀ u m, (healthCheck u true m).imuConnected = true) := by
  refine ⟨rfl, rfl, ?_⟩
  intro u m
  rfl

/-- Claim C5 is false: with the IMU present on the bus but imu.init()
failing, setup does not halt — it still emits the TRANSPORT,serial line and
returns — and a recovery path exists: the next health check with a
successful probe marks the IMU connected again. -/
theorem c5_counterexample :
    (setupModel true false true false).imuConnected = false ∧
    (setupModel true false true false).sent =
      [(TxChannel.serial, ("TRANSPORT," ++ "serial") ++ "\r\n")] ∧
    (healthCheck false true true).imuConnected = true := by
  refine ⟨rfl, rfl, rfl⟩

/-- Claim C6: on a tick with the IMU connected, an all-zero raw magnetometer
triple is never forwarded to the 9-axis fusion path — the filter is invoked
through the 6-axis updateIMU call — and the 9-axis update call happens only
when at least one raw component is nonzero. -/
theorem c6_zero_mag_six_axis (mc : Bool) (g a : Vec3) :
    (fusionStage true mc g a (0, 0, 0) =
      FusionCall.updateIMU g.1 g.2.1 g.2.2 a.1 a.2.1 a.2.2) ∧
    (∀ ic mr, isNineAxis (fusionStage ic mc g a mr) = true →
      ¬(mr.1 = 0 ∧ mr.2.1 = 0 ∧ mr.2.2 = 0)) := by
  constructor
  · cases mc <;> simp [fusionStage]
  · intro ic mr hnine hzero
    rcases hzero with ⟨h1, h2, h3⟩
    rcases mr with ⟨x, y, z⟩
    simp only at h1 h2 h3
    subst h1; subst h2; subst h3
    cases ic <;> cases mc <;> simp_all [fusionStage, isNineAxis]

/-- Witness for c6_zero_mag_six_axis: concrete 6-axis call on the all-zero
triple, and a concrete application of the 9-axis conjunct. -/
theorem c6_zero_mag_six_axis_witness :
    fusionStage true true (1, 2, 3) (4, 5, 6) (0, 0, 0) =
      FusionCall.updateIMU 1 2 3 4 5 6 ∧
    ¬(((5 : ℤ), (0 : ℤ), (0 : ℤ)).1 = 0 ∧ ((5 : ℤ), (0 : ℤ), (0 : ℤ)).2.1 = 0 ∧
      ((5 : ℤ), (0 : ℤ), (0 : ℤ)).2.2 = 0) :=
  ⟨(c6_zero_mag_six_axis true (1, 2, 3) (4, 5, 6)).1,
   (c6_zero_mag_six_axis true (1, 2, 3) (4, 5, 6)).2 true (5, 0, 0)
     (by decide)⟩

/-- Claim C7: a tick on which any filter output is NaN leaves the smoothing
state — including the seeded flag — unchanged and emits nothing, and a valid
tick from any state emits exactly one EULER payload, so emission resumes on
the next valid tick. -/
theorem c7_nan_tick_dropped (st : SmoothState) (roll pitch yaw : Option ℚ)
    (h : roll = none ∨ pitch = none ∨ yaw = none) :
    eulerStage st roll pitch yaw = (st, []) ∧
    (∀ r p y : ℚ,
      ((eulerStage st (some r) (some p) (some y)).2).length = 1) := by
  constructor
  · rcases h with h | h | h <;> subst h
    · rfl
    · cases roll <;> rfl
    · cases roll <;> cases pitch <;> rfl
  · intro r p y
    rw [eulerStage]
    simp

/-- Witness for c7_nan_tick_dropped: a NaN roll with otherwise valid outputs
is dropped without touching the state, and a fully valid tick emits one
payload. -/
theorem c7_nan_tick_dropped_witness :
    eulerStage ⟨1, 2, 3, true⟩ none (some 5) (some 6) =
      (⟨1, 2, 3, true⟩, []) ∧
    ((eulerStage ⟨1, 2, 3, true⟩ (some 10) (some 20) (some 30)).2).length
      = 1 :=
  ⟨(c7_nan_tick_dropped ⟨1, 2, 3, true⟩ none (some 5) (some 6)
      (Or.inl rfl)).1,
   (c7_nan_tick_dropped ⟨1, 2, 3, true⟩ none (some 5) (some 6)
      (Or.inl rfl)).2 10 20 30⟩

/-- Claim C9 (amended): every line is handed to the currently active channel;
on the serial fallback channel the delivered bytes are the line followed by
CRLF, hence newline-terminated, while on the wifi primary channel the
delivered datagram is exactly the line with no newline terminator (framing is
by datagram boundary). -/
theorem c9_line_delivery (line : String) :
    sendLine false line = (TxChannel.serial, line ++ "\r\n") ∧
    newlineTerminated (sendLine false line).2 ∧
    sendLine true line = (TxChannel.wifi, line) := by
  refine ⟨rfl, ?_, rfl⟩
  show newlineTerminated (line ++ "\r\n")
  rw [newlineTerminated, String.data_append, List.getLast?_append]
  rfl

/-- Claim C9 is false as stated: on the primary wifi channel the delivered
bytes are exactly the line, with no newline terminator, so the TRANSPORT
line sent over wifi is not newline-terminated. -/
theorem c9_counterexample :
    (sendLine true "TRANSPORT,wifi").1 = TxChannel.wifi ∧
    (sendLine true "TRANSPORT,wifi").2 = "TRANSPORT,wifi" ∧
    ¬ newlineTerminated (sendLine true "TRANSPORT,wifi").2 := by
  refine ⟨rfl, rfl, ?_⟩
  rw [newlineTerminated]
  decide

/-- Claim C10: after a failed IMU initialization at startup, the periodic
health check recomputes imuConnected solely from the I2C presence probe —
for any probe outcome it returns exactly the probe value, whatever the past
init result was — so imuConnected can become true again and the fusion path
(which is gated only on imuConnected) resumes invoking the filter, without
the init sequence ever having succeeded. -/
theorem c10_health_not_latched :
    (setupModel true false true false).imuConnected = false ∧
    (∀ u p m, (healthCheck u p m).imuConnected = p) ∧
    (∀ mc g a mr, fusionStage true mc g a mr ≠ FusionCall.skipped) := by
  refine ⟨rfl, fun u p m => rfl, ?_⟩
  intro mc g a mr heq
  rw [fusionStage] at heq
  rcases ite_eq_iff.mp heq with ⟨hc, h⟩ | ⟨hc, h⟩
  · rcases ite_eq_iff.mp h with ⟨hc2, h2⟩ | ⟨hc2, h2⟩
    · exact FusionCall.noConfusion h2
    · exact FusionCall.noConfusion h2
  · exact absurd rfl hc

/-- Witness for c10_health_not_latched: one concrete resumed fusion tick. -/
theorem c10_health_not_latched_witness :
    fusionStage true true (1, 1, 1) (1, 1, 1) (0, 0, 0) ≠
      FusionCall.skipped :=
  c10_health_not_latched.2.2 true (1, 1, 1) (1, 1, 1) (0, 0, 0)
